import Mathlib

/-!
Verification development for the beautyglow product-catalog backend
(`src/server.js`). The server is a thin Express application over a MySQL
`products` table, an `admin` table, and an `uploads/` media directory.
We embed the data model and each route handler as pure Lean functions on
an explicit server state and prove the specified properties about them.
-/

namespace BeautyGlow

/-! ## String helpers: substring test (JS `RegExp.test` with an alternation
of literal tokens), `path.extname`, and decimal printing of naturals
(JS number-to-string coercion). -/

/-- Bool test that `pat` is a prefix of `s` (over character lists). -/
def prefixTest : List Char → List Char → Bool
  | [], _ => true
  | _ :: _, [] => false
  | a :: as, b :: bs => a == b && prefixTest as bs

/-- Bool test that `pat` occurs contiguously somewhere inside `s`.
`RegExp.test` with an alternation of literal tokens `t` returns true on
`s` exactly when some `t` passes this test against `s.data`. -/
def subTest (pat : List Char) : List Char → Bool
  | [] => pat.isEmpty
  | b :: bs => prefixTest pat (b :: bs) || subTest pat bs

/-- The suffix of a character list starting at its last dot, if any
(helper for `extname`). -/
def extChars : List Char → Option (List Char)
  | [] => none
  | c :: cs =>
    match extChars cs with
    | some e => some e
    | none => if c = '.' then some (c :: cs) else none

/-- Model of Node `path.extname` on a plain file name: the substring from
the last dot to the end, where a dot in the leading position does not
count (`.bashrc` has no extension) and a dotless name yields `""`. -/
def extname (s : String) : String :=
  match s.data with
  | [] => ""
  | _ :: cs =>
    match extChars cs with
    | some e => String.mk e
    | none => ""

/-- The decimal digit characters. -/
def digitChar (n : Nat) : Char :=
  if n = 0 then '0' else if n = 1 then '1' else if n = 2 then '2'
  else if n = 3 then '3' else if n = 4 then '4' else if n = 5 then '5'
  else if n = 6 then '6' else if n = 7 then '7' else if n = 8 then '8'
  else if n = 9 then '9' else '*'

/-- Decimal digit string of `n`, most significant first, with explicit
fuel so the definition is structural and computes by `decide`. -/
def natDigitsAux : Nat → Nat → List Char
  | 0, _ => []
  | f + 1, n =>
    if n < 10 then [digitChar n]
    else natDigitsAux f (n / 10) ++ [digitChar (n % 10)]

/-- Decimal digit string of `n` (fuel `n + 1` always suffices). -/
def natDigits (n : Nat) : List Char := natDigitsAux (n + 1) n

/-! ## Media store and upload model (multer configuration, server.js
lines 33-61).

`storage.filename` generates `Date.now() + '-' + Math.round(Math.random()
* 1E9)` followed by `path.extname(file.originalname)`. We model the call
of `Date.now()` and of `Math.round(Math.random() * 1E9)` as two natural
numbers supplied by the environment. -/

/-- Stored file name generated by the multer `diskStorage.filename`
callback: time prefix, a dash, random suffix, original extension. -/
def genFilename (now rand : Nat) (originalname : String) : String :=
  String.mk (natDigits now) ++ "-" ++ String.mk (natDigits rand) ++ extname originalname

/-- The tokens of the alternation regex `/jpeg|jpg|png|gif|webp/`. -/
def allowTokens : List String := ["jpeg", "jpg", "png", "gif", "webp"]

/-- JS `filetypes.test s` for `filetypes = /jpeg|jpg|png|gif|webp/`:
true when some token occurs as a contiguous substring of `s`. -/
def regexTest (s : String) : Bool := allowTokens.any (fun t => subTest t.data s.data)

/-- ASCII lowercasing of one character (JS `toLowerCase` restricted to
the ASCII range, which covers extensions). -/
def lowerChar (c : Char) : Char :=
  if 'A' ≤ c ∧ c ≤ 'Z' then Char.ofNat (c.toNat + 32) else c

/-- ASCII lowercasing of a string, character by character. -/
def lowerStr (s : String) : String := String.mk (s.data.map lowerChar)

/-- The multer `fileFilter`: tests the declared mimetype and the
lowercased extension of the original name against the token regex. -/
def fileFilterAccepts (mimetype originalname : String) : Bool :=
  regexTest mimetype && regexTest (lowerStr (extname originalname))

/-- Full upload acceptance: the `fileFilter` passes and the file size is
within the configured `limits.fileSize` of `5 * 1024 * 1024` bytes. -/
def uploadAccepts (mimetype originalname : String) (size : Nat) : Bool :=
  fileFilterAccepts mimetype originalname && decide (size ≤ 5 * 1024 * 1024)

/-- The reading of the spec sentence in which a file extension matches
the allow-list \x7bjpeg, jpg, png, gif, webp\x7d: the extension is one of
the listed ones. Stated over the literal extension text, with or without
its leading dot. -/
def extAllowListed (e : String) : Bool :=
  [".jpeg", ".jpg", ".png", ".gif", ".webp"].contains e ||
  ["jpeg", "jpg", "png", "gif", "webp"].contains e

/-! ## Data model (schema, server.js lines 70-97). -/

/-- A row of the `products` table. Timestamps are modelled by a logical
clock of type `Nat`. `icon` and `image` are nullable columns. -/
structure Product where
  id : Nat
  name : String
  description : String
  price : String
  icon : Option String
  image : Option String
  created_at : Nat
  updated_at : Nat
deriving Repr, DecidableEq

/-- A row of the `admin` table. -/
structure AdminRow where
  id : Nat
  username : String
  password : String
deriving Repr, DecidableEq

/-- The persistent state seen by the handlers: both tables, the set of
paths present in the `uploads/` media directory, the next
`AUTO_INCREMENT` id, and a logical clock driving `CURRENT_TIMESTAMP`. -/
structure ServerState where
  products : List Product
  admins : List AdminRow
  files : List String
  nextId : Nat
  clock : Nat
deriving Repr, DecidableEq

/-- Writing a file into the media directory: path creation or overwrite,
so the set of stored paths gains `p`. -/
def storeFile (files : List String) (p : String) : List String :=
  if p ∈ files then files else files ++ [p]

/-- `fs.unlinkSync` guarded by `fs.existsSync`: removes the path when
present, a no-op otherwise. -/
def removeFile (files : List String) (p : String) : List String :=
  files.filter (fun q => decide (q ≠ p))

/-- `SELECT * FROM products WHERE id = ?` returning the first row. -/
def findProduct (s : ServerState) (id : Nat) : Option Product :=
  s.products.find? (fun p => decide (p.id = id))

/-- Ordering used by `ORDER BY created_at DESC`: descending timestamps. -/
def createdDesc (a b : Product) : Prop := b.created_at ≤ a.created_at

instance : DecidableRel createdDesc := fun a b => Nat.decLe _ _

instance : IsTotal Product createdDesc := ⟨fun a b => Nat.le_total b.created_at a.created_at⟩

instance : IsTrans Product createdDesc :=
  ⟨fun _ _ _ h h' => Nat.le_trans h' h⟩

/-- Outcome of a route handler, abstracting the HTTP status and JSON
envelope: 200 with payload, 400, 404, or 401. -/
inductive ApiResult (α : Type) where
  | ok : α → ApiResult α
  | badRequest : ApiResult α
  | notFound : ApiResult α
  | authFailed : ApiResult α
deriving Repr, DecidableEq

/-! ## Route handlers (server.js lines 106-246). -/

/-- `GET /api/products` (lines 109-117): all rows ordered by
`created_at` descending. -/
def listProducts (s : ServerState) : List Product :=
  List.insertionSort createdDesc s.products

/-- `GET /api/products/:id` (lines 120-131): the row, or 404. -/
def getProduct (s : ServerState) (id : Nat) : ApiResult Product :=
  match findProduct s id with
  | none => .notFound
  | some p => .ok p

/-- `POST /api/products` (lines 134-156), including the
`upload.single` middleware that stores an attached file before the
handler body runs. Empty strings model both absent and empty form
fields (JS falsiness of `undefined` and `""`). Returns the handler
outcome and the state after the request. -/
def createProduct (s : ServerState) (name description price icon : String)
    (file : Option String) : ApiResult Product × ServerState :=
  let s0 := match file with
    | some f => { s with files := storeFile s.files ("/uploads/" ++ f) }
    | none => s
  if name = "" ∨ description = "" ∨ price = "" then
    (.badRequest, s0)
  else
    let row : Product :=
      { id := s0.nextId, name := name, description := description, price := price,
        icon := if icon = "" then none else some icon,
        image := file.map (fun f => "/uploads/" ++ f),
        created_at := s0.clock, updated_at := s0.clock }
    let s1 : ServerState :=
      { s0 with products := s0.products ++ [row],
                nextId := s0.nextId + 1, clock := s0.clock + 1 }
    match findProduct s1 row.id with
    | some p => (.ok p, s1)
    | none => (.ok row, s1)

/-- The row inserted by a successful `POST /api/products` on state `s`:
generated id, the supplied scalar fields with `icon || null`, the stored
upload path if a file was attached, and current timestamps. -/
def newRow (s : ServerState) (name description price icon : String)
    (file : Option String) : Product :=
  { id := s.nextId, name := name, description := description, price := price,
    icon := if icon = "" then none else some icon,
    image := file.map (fun f => "/uploads/" ++ f),
    created_at := s.clock, updated_at := s.clock }

/-- The files present after the upload middleware has run on state `s`
with optional attached file `file` stored under name `f`. -/
def filesAfterUpload (files : List String) (file : Option String) : List String :=
  match file with
  | some f => storeFile files ("/uploads/" ++ f)
  | none => files

/-- The row produced by the `UPDATE products SET ...` statement: the
four scalar columns overwritten (`icon || null`), the image column set
to `imagePath`, and `updated_at` refreshed. -/
def updRow (p : Product) (name description price icon : String)
    (imagePath : Option String) (clock : Nat) : Product :=
  { p with name := name, description := description, price := price,
           icon := if icon = "" then none else some icon,
           image := imagePath, updated_at := clock }

/-- The image path written by an update: the stored upload path when a
new file is attached, the existing value otherwise. -/
def newImagePath (p0 : Product) (file : Option String) : Option String :=
  match file with
  | some f => some ("/uploads/" ++ f)
  | none => p0.image

/-- The media directory after an update of a row whose image column
held `p0img`: the upload middleware stores the new file, then the old
file (if any) is unlinked. -/
def updFiles (files : List String) (p0img : Option String) (file : Option String) :
    List String :=
  match file, p0img with
  | some f, some old => removeFile (storeFile files ("/uploads/" ++ f)) old
  | some f, none => storeFile files ("/uploads/" ++ f)
  | none, _ => files

/-- `PUT /api/products/:id` (lines 159-196), including the
`upload.single` middleware. When a new file is attached the old image
path is unlinked and replaced; the four scalar columns are overwritten
unconditionally, with no presence validation. -/
def updateProduct (s : ServerState) (id : Nat) (name description price icon : String)
    (file : Option String) : ApiResult Product × ServerState :=
  let s0 := match file with
    | some f => { s with files := storeFile s.files ("/uploads/" ++ f) }
    | none => s
  match findProduct s0 id with
  | none => (.notFound, s0)
  | some existing =>
    let s1 := match file, existing.image with
      | some _, some old => { s0 with files := removeFile s0.files old }
      | _, _ => s0
    let imagePath := match file with
      | some f => some ("/uploads/" ++ f)
      | none => existing.image
    let s2 : ServerState :=
      { s1 with
        products := s1.products.map (fun p =>
          if p.id = id then
            { p with name := name, description := description, price := price,
                     icon := if icon = "" then none else some icon,
                     image := imagePath, updated_at := s1.clock }
          else p),
        clock := s1.clock + 1 }
    match findProduct s2 id with
    | some p => (.ok p, s2)
    | none => (.notFound, s2)

/-- `DELETE /api/products/:id` (lines 199-225): 404 when the row is
absent; otherwise the referenced image file is unlinked first and the
row is deleted afterwards. -/
def deleteProduct (s : ServerState) (id : Nat) : ApiResult Unit × ServerState :=
  match findProduct s id with
  | none => (.notFound, s)
  | some p =>
    let s1 := match p.image with
      | some old => { s with files := removeFile s.files old }
      | none => s
    let s2 : ServerState :=
      { s1 with products := s1.products.filter (fun q => decide (q.id ≠ id)) }
    (.ok (), s2)

/-- `POST /api/admin/login` (lines 228-246): exact-match lookup of the
credential pair; 401 when no row matches. -/
def adminLogin (s : ServerState) (username password : String) : ApiResult Unit :=
  let rows := s.admins.filter
    (fun a => decide (a.username = username ∧ a.password = password))
  if rows.length = 0 then .authFailed else .ok ()

/-! ## Reachability invariant. -/

/-- Pairwise distinct product ids, as an executable check. -/
def distinctIds : List Product → Bool
  | [] => true
  | p :: ps => ps.all (fun q => decide (p.id ≠ q.id)) && distinctIds ps

/-- Invariant of reachable states: ids are pairwise distinct, below the
`AUTO_INCREMENT` counter, and every stored timestamp is in the past. -/
def goodState (s : ServerState) : Bool :=
  distinctIds s.products &&
  s.products.all (fun p => decide (p.id < s.nextId ∧ p.created_at < s.clock))

/-! ## Demonstration states used by witnesses. -/

/-- The seeded admin row (server.js lines 93-97). -/
def adminSeed : AdminRow := { id := 1, username := "admin", password := "admin123" }

/-- The state right after startup: empty tables apart from the seeded
admin row, empty media directory. -/
def initState : ServerState :=
  { products := [], admins := [adminSeed], files := [], nextId := 1, clock := 0 }

/-- A concrete product row with an image, used by witnesses. -/
def demoProduct : Product :=
  { id := 1, name := "Tea", description := "Green tea", price := "3.50",
    icon := some "T", image := some "/uploads/old.png",
    created_at := 0, updated_at := 0 }

/-- A concrete state holding `demoProduct` and its image file. -/
def demoState : ServerState :=
  { products := [demoProduct], admins := [adminSeed],
    files := ["/uploads/old.png"], nextId := 2, clock := 1 }

/-! ## Basic lemmas about the helpers. -/

theorem prefixTest_iff (pat : List Char) : ∀ s, prefixTest pat s = true ↔ ∃ r, s = pat ++ r := by
  induction pat with
  | nil => intro s; simp [prefixTest]
  | cons a as ih =>
    intro s
    cases s with
    | nil => simp [prefixTest]
    | cons b bs =>
      simp only [prefixTest, Bool.and_eq_true, beq_iff_eq, ih]
      constructor
      · rintro ⟨rfl, r, rfl⟩; exact ⟨r, rfl⟩
      · rintro ⟨r, hr⟩
        injection hr with h1 h2
        exact ⟨h1.symm, r, h2⟩

theorem subTest_iff (pat : List Char) : ∀ s, subTest pat s = true ↔ ∃ l r, s = l ++ pat ++ r := by
  intro s
  induction s with
  | nil =>
    simp only [subTest, List.isEmpty_iff]
    constructor
    · rintro rfl; exact ⟨[], [], rfl⟩
    · rintro ⟨l, r, hr⟩
      rcases List.append_eq_nil.mp (List.append_eq_nil.mp hr.symm).1 with ⟨-, h2⟩
      exact h2
  | cons b bs ih =>
    simp only [subTest, Bool.or_eq_true, prefixTest_iff, ih]
    constructor
    · rintro (⟨r, hr⟩ | ⟨l, r, rfl⟩)
      · exact ⟨[], r, by simpa using hr⟩
      · exact ⟨b :: l, r, rfl⟩
    · rintro ⟨l, r, hr⟩
      cases l with
      | nil => exact Or.inl ⟨r, by simpa using hr⟩
      | cons x xs =>
        injection hr with h1 h2
        exact Or.inr ⟨xs, r, h2⟩

theorem distinctIds_cons {p : Product} {ps : List Product} :
    distinctIds (p :: ps) = true ↔ (∀ q ∈ ps, p.id ≠ q.id) ∧ distinctIds ps = true := by
  simp [distinctIds, List.all_eq_true]

theorem goodState_iff {s : ServerState} :
    goodState s = true ↔ distinctIds s.products = true ∧
      ∀ p ∈ s.products, p.id < s.nextId ∧ p.created_at < s.clock := by
  simp [goodState, Bool.and_eq_true, List.all_eq_true]

theorem find?_id_of_distinct {l : List Product} {p0 : Product}
    (hd : distinctIds l = true) (hm : p0 ∈ l) :
    l.find? (fun p => decide (p.id = p0.id)) = some p0 := by
  induction l with
  | nil => cases hm
  | cons q t ih =>
    rw [distinctIds_cons] at hd
    rcases List.mem_cons.mp hm with rfl | hm'
    · simp
    · have hne : q.id ≠ p0.id := hd.1 p0 hm'
      rw [List.find?_cons_of_neg _ (by simpa using hne), ih hd.2 hm']

theorem find?_id_fresh {l : List Product} {id : Nat} (h : ∀ p ∈ l, p.id ≠ id) :
    l.find? (fun p => decide (p.id = id)) = none :=
  List.find?_eq_none.mpr (by simpa using h)

theorem sort_head_of_max {l : List Product} {new : Product}
    (hm : new ∈ l) (hmax : ∀ q ∈ l, q ≠ new → q.created_at < new.created_at) :
    (List.insertionSort createdDesc l).head? = some new := by
  have hperm := List.perm_insertionSort createdDesc l
  have hsort := List.sorted_insertionSort createdDesc l
  cases hl' : List.insertionSort createdDesc l with
  | nil =>
    rw [hl'] at hperm
    rw [hperm.symm.eq_nil] at hm
    cases hm
  | cons h t =>
    rw [hl'] at hperm hsort
    have hhl : h ∈ l := hperm.subset (List.mem_cons_self h t)
    by_cases heq : h = new
    · simp [heq]
    · have hlt := hmax h hhl heq
      have hnew : new ∈ h :: t := hperm.mem_iff.mpr hm
      rcases List.mem_cons.mp hnew with rfl | hnt
      · exact absurd rfl heq
      · have hdesc := (List.sorted_cons.mp hsort).1 new hnt
        simp only [createdDesc] at hdesc
        omega

theorem distinctIds_append_one {l : List Product} {x : Product}
    (hd : distinctIds l = true) (hx : ∀ p ∈ l, p.id ≠ x.id) :
    distinctIds (l ++ [x]) = true := by
  induction l with
  | nil => simp [distinctIds]
  | cons q t ih =>
    rw [distinctIds_cons] at hd
    rw [List.cons_append, distinctIds_cons]
    refine ⟨?_, ih hd.2 (fun p hp => hx p (List.mem_cons_of_mem q hp))⟩
    intro r hr
    rcases List.mem_append.mp hr with h | h
    · exact hd.1 r h
    · rcases List.mem_singleton.mp h with rfl
      exact hx q (List.mem_cons_self q t)

theorem createProduct_fail {s : ServerState} {name description price icon : String}
    {file : Option String} (h : name = "" ∨ description = "" ∨ price = "") :
    createProduct s name description price icon file =
      (.badRequest, { s with files := filesAfterUpload s.files file }) := by
  cases file <;> simp [createProduct, if_pos h, filesAfterUpload]

theorem createProduct_success {s : ServerState} (hg : goodState s = true)
    (name description price icon : String) (file : Option String)
    (hn : ¬(name = "" ∨ description = "" ∨ price = "")) :
    createProduct s name description price icon file =
      (.ok (newRow s name description price icon file),
       { products := s.products ++ [newRow s name description price icon file],
         admins := s.admins,
         files := filesAfterUpload s.files file,
         nextId := s.nextId + 1, clock := s.clock + 1 }) := by
  have hfresh : ∀ p ∈ s.products, p.id ≠ s.nextId := fun p hp =>
    Nat.ne_of_lt ((goodState_iff.mp hg).2 p hp).1
  have hfind : (s.products ++ [newRow s name description price icon file]).find?
      (fun p => decide (p.id = s.nextId)) =
      some (newRow s name description price icon file) := by
    rw [List.find?_append, find?_id_fresh hfresh]
    simp [newRow]
  cases file with
  | none =>
    simp only [createProduct, if_neg hn, findProduct, newRow] at hfind ⊢
    rw [hfind]
    rfl
  | some f =>
    simp only [createProduct, if_neg hn, findProduct, newRow, filesAfterUpload] at hfind ⊢
    rw [hfind]

theorem mem_storeFile {files : List String} {x q : String} (h : q ∈ files) :
    q ∈ storeFile files x := by
  unfold storeFile
  split
  · exact h
  · exact List.mem_append_left _ h

theorem updateProduct_notFound {s : ServerState} {id : Nat}
    (h : ∀ p ∈ s.products, p.id ≠ id)
    (name description price icon : String) (file : Option String) :
    updateProduct s id name description price icon file =
      (.notFound, { s with files := filesAfterUpload s.files file }) := by
  cases file with
  | none =>
    simp only [updateProduct, findProduct, filesAfterUpload]
    rw [find?_id_fresh h]
  | some f =>
    simp only [updateProduct, findProduct, filesAfterUpload]
    rw [find?_id_fresh h]

theorem deleteProduct_notFound {s : ServerState} {id : Nat}
    (h : ∀ p ∈ s.products, p.id ≠ id) :
    deleteProduct s id = (.notFound, s) := by
  simp only [deleteProduct, findProduct]
  rw [find?_id_fresh h]

theorem updateProduct_success {s : ServerState} (hg : goodState s = true)
    {id : Nat} {p0 : Product} (hm : p0 ∈ s.products) (hid : p0.id = id)
    (name description price icon : String) (file : Option String) :
    updateProduct s id name description price icon file =
      (.ok (updRow p0 name description price icon (newImagePath p0 file) s.clock),
       { products := s.products.map (fun p =>
           if p.id = id then
             updRow p name description price icon (newImagePath p0 file) s.clock
           else p),
         admins := s.admins,
         files := updFiles s.files p0.image file,
         nextId := s.nextId,
         clock := s.clock + 1 }) := by
  subst hid
  obtain ⟨hdist, hbound⟩ := goodState_iff.mp hg
  have hfind0 : s.products.find? (fun p => decide (p.id = p0.id)) = some p0 :=
    find?_id_of_distinct hdist hm
  have hfind2 : (s.products.map (fun p =>
        if p.id = p0.id then
          updRow p name description price icon (newImagePath p0 file) s.clock
        else p)).find? (fun p => decide (p.id = p0.id)) =
      some (updRow p0 name description price icon (newImagePath p0 file) s.clock) := by
    rw [List.find?_map]
    have hcong : ((fun p : Product => decide (p.id = p0.id)) ∘ (fun p =>
        if p.id = p0.id then
          updRow p name description price icon (newImagePath p0 file) s.clock
        else p)) = (fun p : Product => decide (p.id = p0.id)) := by
      funext p
      by_cases h : p.id = p0.id <;> simp [Function.comp, h, updRow]
    rw [hcong, hfind0]
    simp [updRow]
  cases file with
  | none =>
    simp only [updateProduct, findProduct, newImagePath, updFiles, updRow] at hfind2 ⊢
    rw [hfind0]
    dsimp only
    rw [hfind2]
  | some f =>
    cases himg : p0.image with
    | none =>
      simp only [updateProduct, findProduct, newImagePath, updFiles, updRow, himg]
        at hfind2 ⊢
      rw [hfind0]
      dsimp only
      rw [himg]
      rw [hfind2]
    | some old =>
      simp only [updateProduct, findProduct, newImagePath, updFiles, updRow, himg]
        at hfind2 ⊢
      rw [hfind0]
      dsimp only
      rw [himg]
      rw [hfind2]

theorem deleteProduct_success {s : ServerState} (hg : goodState s = true)
    {id : Nat} {p0 : Product} (hm : p0 ∈ s.products) (hid : p0.id = id) :
    deleteProduct s id =
      (.ok (),
       { products := s.products.filter (fun q => decide (q.id ≠ id)),
         admins := s.admins,
         files := (match p0.image with
                   | some old => removeFile s.files old
                   | none => s.files),
         nextId := s.nextId, clock := s.clock }) := by
  subst hid
  obtain ⟨hdist, hbound⟩ := goodState_iff.mp hg
  simp only [deleteProduct, findProduct]
  rw [find?_id_of_distinct hdist hm]
  dsimp only
  cases himg : p0.image <;> rfl

/-! ## Claim theorems. -/

/-- C1: a create request in which name, description, or price is
missing or empty fails with ValidationError (HTTP 400) and inserts no
row; a create request in which all three are non-empty passes
validation and inserts a row. -/
theorem c1_create_validation (s : ServerState) (name description price icon : String)
    (file : Option String) (hg : goodState s = true) :
    (name = "" ∨ description = "" ∨ price = "" →
      (createProduct s name description price icon file).1 = .badRequest ∧
      (createProduct s name description price icon file).2.products = s.products) ∧
    (name ≠ "" ∧ description ≠ "" ∧ price ≠ "" →
      (createProduct s name description price icon file).1 =
        .ok (newRow s name description price icon file) ∧
      (createProduct s name description price icon file).2.products =
        s.products ++ [newRow s name description price icon file]) := by
  constructor
  · intro h
    rw [createProduct_fail h]
    exact ⟨rfl, rfl⟩
  · intro ⟨hn, hd, hp⟩
    rw [createProduct_success hg name description price icon file (by tauto)]
    exact ⟨rfl, rfl⟩

/-- Witness for C1 at concrete inputs: an empty name is rejected with
no row inserted, and a fully populated request inserts exactly one
row. -/
theorem c1_witness :
    goodState initState = true ∧
    ((createProduct initState "" "d" "p" "" none).1 = .badRequest ∧
     (createProduct initState "" "d" "p" "" none).2.products = initState.products) ∧
    ((createProduct initState "Tea" "Green tea" "3.50" "" none).1 =
       .ok (newRow initState "Tea" "Green tea" "3.50" "" none) ∧
     (createProduct initState "Tea" "Green tea" "3.50" "" none).2.products =
       initState.products ++ [newRow initState "Tea" "Green tea" "3.50" "" none]) :=
  ⟨by decide,
   (c1_create_validation initState "" "d" "p" "" none (by decide)).1 (Or.inl rfl),
   (c1_create_validation initState "Tea" "Green tea" "3.50" "" none (by decide)).2
     ⟨by decide, by decide, by decide⟩⟩

/-- C4: `listAll` is sorted by `created_at` descending and is a
permutation of the stored rows, and immediately after any successful
create the just-created product is the first element; moreover the
state invariant is preserved, so the property holds along any sequence
of creates. -/
theorem c4_listAll_newest_first (s : ServerState) (hg : goodState s = true)
    (name description price icon : String) (file : Option String)
    (hv : name ≠ "" ∧ description ≠ "" ∧ price ≠ "") :
    (listProducts s).Pairwise createdDesc ∧
    (listProducts s).Perm s.products ∧
    (createProduct s name description price icon file).1 =
      .ok (newRow s name description price icon file) ∧
    (listProducts (createProduct s name description price icon file).2).head? =
      some (newRow s name description price icon file) ∧
    goodState (createProduct s name description price icon file).2 = true := by
  obtain ⟨hdist, hbound⟩ := goodState_iff.mp hg
  have hrun := createProduct_success hg name description price icon file (by tauto)
  refine ⟨List.sorted_insertionSort createdDesc s.products,
          List.perm_insertionSort createdDesc s.products, ?_, ?_, ?_⟩
  · rw [hrun]
  · rw [hrun]
    apply sort_head_of_max
    · exact List.mem_append_right _ (List.mem_singleton_self _)
    · intro q hq hne
      rcases List.mem_append.mp hq with h | h
      · exact (hbound q h).2
      · exact absurd (List.mem_singleton.mp h) hne
  · rw [hrun]
    rw [goodState_iff]
    dsimp only
    constructor
    · exact distinctIds_append_one hdist
        (fun p hp => Nat.ne_of_lt (hbound p hp).1)
    · intro p hp
      rcases List.mem_append.mp hp with h | h
      · have := hbound p h
        exact ⟨by omega, by omega⟩
      · rcases List.mem_singleton.mp h with rfl
        exact ⟨by simp [newRow], by simp [newRow]⟩

/-- Witness for C4: creating a product in a concrete two-product state
puts it at the head of `listAll`. -/
theorem c4_witness :
    goodState demoState = true ∧
    ((listProducts demoState).Pairwise createdDesc ∧
     (listProducts demoState).Perm demoState.products ∧
     (createProduct demoState "New" "Desc" "9.99" "" none).1 =
       .ok (newRow demoState "New" "Desc" "9.99" "" none) ∧
     (listProducts (createProduct demoState "New" "Desc" "9.99" "" none).2).head? =
       some (newRow demoState "New" "Desc" "9.99" "" none) ∧
     goodState (createProduct demoState "New" "Desc" "9.99" "" none).2 = true) :=
  ⟨by decide,
   c4_listAll_newest_first demoState (by decide) "New" "Desc" "9.99" "" none
     ⟨by decide, by decide, by decide⟩⟩

/-- C5: `getById` on an id with no matching row fails with NotFound;
after a successful create, `getById` on the returned id returns the
row, whose fields match the values supplied to create (with `icon`
stored as NULL when the optional field was absent, and `image` the
stored upload path). -/
theorem c5_getById_roundtrip (s : ServerState) (hg : goodState s = true) :
    (∀ id, (∀ p ∈ s.products, p.id ≠ id) → getProduct s id = .notFound) ∧
    (∀ name description price icon file, name ≠ "" → description ≠ "" → price ≠ "" →
      (createProduct s name description price icon file).1 =
        .ok (newRow s name description price icon file) ∧
      getProduct (createProduct s name description price icon file).2
          (newRow s name description price icon file).id =
        .ok (newRow s name description price icon file) ∧
      (newRow s name description price icon file).name = name ∧
      (newRow s name description price icon file).description = description ∧
      (newRow s name description price icon file).price = price ∧
      (newRow s name description price icon file).icon =
        (if icon = "" then none else some icon) ∧
      (newRow s name description price icon file).image =
        file.map (fun f => "/uploads/" ++ f)) := by
  constructor
  · intro id hid
    unfold getProduct findProduct
    rw [find?_id_fresh hid]
  · intro name description price icon file hn hd hp
    have hrun := createProduct_success hg name description price icon file (by tauto)
    have hfresh : ∀ p ∈ s.products, p.id ≠ s.nextId := fun p hp =>
      Nat.ne_of_lt ((goodState_iff.mp hg).2 p hp).1
    refine ⟨by rw [hrun], ?_, rfl, rfl, rfl, rfl, rfl⟩
    rw [hrun]
    unfold getProduct findProduct
    have hid : (newRow s name description price icon file).id = s.nextId := rfl
    rw [hid, List.find?_append, find?_id_fresh hfresh]
    simp [newRow]

/-- Witness for C5: in a concrete state, `getById 42` is NotFound, and
a create followed by `getById` returns the matching row. -/
theorem c5_witness :
    goodState demoState = true ∧
    getProduct demoState 42 = .notFound ∧
    ((createProduct demoState "New" "Desc" "9.99" "I" (some "i.png")).1 =
       .ok (newRow demoState "New" "Desc" "9.99" "I" (some "i.png")) ∧
     getProduct (createProduct demoState "New" "Desc" "9.99" "I" (some "i.png")).2
         (newRow demoState "New" "Desc" "9.99" "I" (some "i.png")).id =
       .ok (newRow demoState "New" "Desc" "9.99" "I" (some "i.png")) ∧
     (newRow demoState "New" "Desc" "9.99" "I" (some "i.png")).name = "New" ∧
     (newRow demoState "New" "Desc" "9.99" "I" (some "i.png")).description = "Desc" ∧
     (newRow demoState "New" "Desc" "9.99" "I" (some "i.png")).price = "9.99" ∧
     (newRow demoState "New" "Desc" "9.99" "I" (some "i.png")).icon =
       (if ("I" : String) = "" then none else some "I") ∧
     (newRow demoState "New" "Desc" "9.99" "I" (some "i.png")).image =
       (some "i.png").map (fun f => "/uploads/" ++ f)) :=
  ⟨by decide,
   (c5_getById_roundtrip demoState (by decide)).1 42 (by decide),
   (c5_getById_roundtrip demoState (by decide)).2 "New" "Desc" "9.99" "I" (some "i.png")
     (by decide) (by decide) (by decide)⟩

/-- C2: updating an existing product with new image bytes removes the
previously referenced file from the media store and sets the row image
field to the new stored path; updating without new image bytes leaves
the row image field unchanged. -/
theorem c2_update_image (s : ServerState) (hg : goodState s = true)
    (id : Nat) (p0 : Product) (hm : p0 ∈ s.products) (hid : p0.id = id)
    (name description price icon : String) :
    (∀ f, ∃ p s', updateProduct s id name description price icon (some f) = (.ok p, s') ∧
       p.image = some ("/uploads/" ++ f) ∧
       (∀ old, p0.image = some old → old ∉ s'.files)) ∧
    (∃ p s', updateProduct s id name description price icon none = (.ok p, s') ∧
       p.image = p0.image) := by
  constructor
  · intro f
    refine ⟨_, _, updateProduct_success hg hm hid name description price icon (some f),
            rfl, ?_⟩
    intro old hold
    simp only [updFiles, hold, removeFile, List.mem_filter]
    simp
  · exact ⟨_, _, updateProduct_success hg hm hid name description price icon none, rfl⟩

/-- Witness for C2 on a concrete one-product state: updating product 1
with a new file removes the old path and records the new one, and
updating without a file keeps the image column. -/
theorem c2_witness :
    goodState demoState = true ∧ demoProduct ∈ demoState.products ∧
    ((∃ p s', updateProduct demoState 1 "N" "D" "P" "" (some "new.png") = (.ok p, s') ∧
       p.image = some ("/uploads/" ++ "new.png") ∧
       (∀ old, demoProduct.image = some old → old ∉ s'.files)) ∧
     (∃ p s', updateProduct demoState 1 "N" "D" "P" "" none = (.ok p, s') ∧
       p.image = demoProduct.image)) :=
  ⟨by decide, by decide,
   (c2_update_image demoState (by decide) 1 demoProduct (by decide) (by decide)
      "N" "D" "P" "").1 "new.png",
   (c2_update_image demoState (by decide) 1 demoProduct (by decide) (by decide)
      "N" "D" "P" "").2⟩

/-- C3: deleting a nonexistent id fails with NotFound and changes
nothing; deleting an existing product removes the row, so a subsequent
`getById` is NotFound, and removes its referenced image file from the
media store. -/
theorem c3_delete_row_and_file (s : ServerState) (hg : goodState s = true) (id : Nat) :
    ((∀ p ∈ s.products, p.id ≠ id) → deleteProduct s id = (.notFound, s)) ∧
    (∀ p0, p0 ∈ s.products → p0.id = id →
      ∃ s', deleteProduct s id = (.ok (), s') ∧
        getProduct s' id = .notFound ∧
        (∀ old, p0.image = some old → old ∉ s'.files)) := by
  constructor
  · exact deleteProduct_notFound
  · intro p0 hm hid
    refine ⟨_, deleteProduct_success hg hm hid, ?_, ?_⟩
    · unfold getProduct findProduct
      dsimp only
      rw [find?_id_fresh ?hfresh]
      case hfresh =>
        intro p hp
        have := (List.mem_filter.mp hp).2
        simpa using this
    · intro old hold
      simp only [hold]
      simp [removeFile, List.mem_filter]

/-- Witness for C3 on a concrete state: deleting id 42 is NotFound;
deleting id 1 removes the row and its image file. -/
theorem c3_witness :
    goodState demoState = true ∧ demoProduct ∈ demoState.products ∧
    deleteProduct demoState 42 = (.notFound, demoState) ∧
    (∃ s', deleteProduct demoState 1 = (.ok (), s') ∧
      getProduct s' 1 = .notFound ∧
      (∀ old, demoProduct.image = some old → old ∉ s'.files)) :=
  ⟨by decide, by decide,
   (c3_delete_row_and_file demoState (by decide) 42).1 (by decide),
   (c3_delete_row_and_file demoState (by decide) 1).2 demoProduct (by decide) (by decide)⟩

/-- C9 (implicit): unlike create, update performs no non-empty
validation: for any existing id the supplied name, description, price,
and icon values are written unconditionally, so an update with empty
strings succeeds and overwrites the row with those empty values. -/
theorem c9_update_without_validation (s : ServerState) (hg : goodState s = true)
    (id : Nat) (p0 : Product) (hm : p0 ∈ s.products) (hid : p0.id = id)
    (name description price icon : String) (file : Option String) :
    ∃ p s', updateProduct s id name description price icon file = (.ok p, s') ∧
      p.name = name ∧ p.description = description ∧ p.price = price ∧
      p.icon = (if icon = "" then none else some icon) ∧
      p.id = id ∧ s'.products.length = s.products.length := by
  refine ⟨_, _, updateProduct_success hg hm hid name description price icon file,
          rfl, rfl, rfl, rfl, ?_, by simp⟩
  simpa [updRow] using hid

/-- Witness for C9: an update of product 1 with empty name,
description, and price succeeds and stores the empty values. -/
theorem c9_witness :
    goodState demoState = true ∧ demoProduct ∈ demoState.products ∧
    (∃ p s', updateProduct demoState 1 "" "" "" "" none = (.ok p, s') ∧
      p.name = "" ∧ p.description = "" ∧ p.price = "" ∧
      p.icon = (if ("" : String) = "" then none else some "") ∧
      p.id = 1 ∧ s'.products.length = demoState.products.length) :=
  ⟨by decide, by decide,
   c9_update_without_validation demoState (by decide) 1 demoProduct (by decide) (by decide)
     "" "" "" "" none⟩

/-- C10, counterexample: an update request carrying a file for a
nonexistent id returns NotFound, yet the media store has changed: the
`upload.single` middleware stores the attached file before the handler
checks row existence, so the claim that no file is created on the
error path is false. -/
theorem c10_counterexample :
    (updateProduct initState 1 "a" "b" "c" "" (some "new.png")).1 = .notFound ∧
    (updateProduct initState 1 "a" "b" "c" "" (some "new.png")).2.files ≠
      initState.files := by decide

/-- C10, amended: update and delete check row existence before any row
mutation or file deletion; on a nonexistent id both return NotFound,
the products table is unchanged, and no file is deleted — but a file
attached to the update request is still stored by the upload
middleware (every previously stored path survives, and the files list
is exactly the old one plus the stored upload, if any). Delete changes
nothing at all. -/
theorem c10_amended_notFound_effects (s : ServerState) (id : Nat)
    (h : ∀ p ∈ s.products, p.id ≠ id)
    (name description price icon : String) (file : Option String) :
    deleteProduct s id = (.notFound, s) ∧
    (updateProduct s id name description price icon file).1 = .notFound ∧
    (updateProduct s id name description price icon file).2.products = s.products ∧
    (updateProduct s id name description price icon file).2.files =
      filesAfterUpload s.files file ∧
    (∀ q ∈ s.files, q ∈ (updateProduct s id name description price icon file).2.files) := by
  rw [updateProduct_notFound h name description price icon file]
  refine ⟨deleteProduct_notFound h, rfl, rfl, rfl, ?_⟩
  intro q hq
  cases file with
  | none => exact hq
  | some f => exact mem_storeFile hq

/-- Witness for C10 amended: in a concrete empty-table state, update
and delete of id 1 return NotFound with the table unchanged, and the
attached upload is the only change to the media store. -/
theorem c10_witness :
    (∀ p ∈ initState.products, p.id ≠ 1) ∧
    (deleteProduct initState 1 = (.notFound, initState) ∧
     (updateProduct initState 1 "a" "b" "c" "" (some "new.png")).1 = .notFound ∧
     (updateProduct initState 1 "a" "b" "c" "" (some "new.png")).2.products =
       initState.products ∧
     (updateProduct initState 1 "a" "b" "c" "" (some "new.png")).2.files =
       filesAfterUpload initState.files (some "new.png") ∧
     (∀ q ∈ initState.files,
       q ∈ (updateProduct initState 1 "a" "b" "c" "" (some "new.png")).2.files)) :=
  ⟨by decide,
   c10_amended_notFound_effects initState 1 (by decide) "a" "b" "c" "" (some "new.png")⟩

/-- C8: `verify(username, password)` succeeds (HTTP 200, success true)
exactly when at least one admin row has both fields equal to the
supplied values, and any mismatch yields AuthFailed (HTTP 401). -/
theorem c8_admin_login_exact_match (s : ServerState) (u pw : String) :
    (adminLogin s u pw = .ok () ↔ ∃ a ∈ s.admins, a.username = u ∧ a.password = pw) ∧
    (adminLogin s u pw = .authFailed ↔ ¬ ∃ a ∈ s.admins, a.username = u ∧ a.password = pw) := by
  have key : ((s.admins.filter
        (fun a => decide (a.username = u ∧ a.password = pw))).length = 0)
      ↔ ¬ ∃ a ∈ s.admins, a.username = u ∧ a.password = pw := by
    rw [List.length_eq_zero, List.filter_eq_nil_iff]
    simp
  by_cases hex : ∃ a ∈ s.admins, a.username = u ∧ a.password = pw
  · have hne : ¬ ((s.admins.filter
        (fun a => decide (a.username = u ∧ a.password = pw))).length = 0) := by
      rw [key]; exact not_not_intro hex
    simp [adminLogin, hne, hex]
  · have hz := key.mpr hex
    simp [adminLogin, hz, hex]

/-- C6, counterexample: the upload filter accepts a file whose
extension `.fakepng` is outside the allow-list \x7bjpeg, jpg, png, gif,
webp\x7d, because the JS code tests the regex `/jpeg|jpg|png|gif|webp/`
by substring containment rather than exact membership. So the claim
that every file whose extension is outside the allow-list is rejected
is false. -/
theorem c6_counterexample :
    uploadAccepts "image/png" "evil.fakepng" 4 = true ∧
    extname "evil.fakepng" = ".fakepng" ∧
    extAllowListed (extname "evil.fakepng") = false ∧
    extAllowListed (lowerStr (extname "evil.fakepng")) = false := by decide

/-- C6, amended: an upload is accepted exactly when the declared media
type contains one of jpeg, jpg, png, gif, webp as a contiguous
substring, the lowercased file extension contains one as a contiguous
substring, and the size is at most 5 MiB = 5242880 bytes. -/
theorem c6_amended_upload_accept_iff (m f : String) (size : Nat) :
    uploadAccepts m f size = true ↔
      ((∃ t ∈ allowTokens, ∃ l r, m.data = l ++ t.data ++ r) ∧
       (∃ t ∈ allowTokens, ∃ l r, (lowerStr (extname f)).data = l ++ t.data ++ r) ∧
       size ≤ 5 * 1024 * 1024) := by
  simp [uploadAccepts, fileFilterAccepts, regexTest, Bool.and_eq_true, List.any_eq_true,
        subTest_iff, and_assoc]

/-! ## Decimal digit strings: lemmas for the filename generator. -/

theorem digitChar_isDigit {n : Nat} (h : n < 10) : (digitChar n).isDigit = true := by
  interval_cases n <;> decide

theorem digitChar_inj {a b : Nat} (ha : a < 10) (hb : b < 10)
    (h : digitChar a = digitChar b) : a = b := by
  interval_cases a <;> interval_cases b <;> revert h <;> decide

theorem natDigitsAux_ne_nil {f n : Nat} (h : 0 < f) : natDigitsAux f n ≠ [] := by
  cases f with
  | zero => omega
  | succ f => by_cases hn : n < 10 <;> simp [natDigitsAux, hn]

theorem natDigitsAux_digits : ∀ f n c, c ∈ natDigitsAux f n → c.isDigit = true := by
  intro f
  induction f with
  | zero => intro n c hc; simp [natDigitsAux] at hc
  | succ f ih =>
    intro n c hc
    by_cases hn : n < 10
    · simp only [natDigitsAux, if_pos hn, List.mem_singleton] at hc
      subst hc
      exact digitChar_isDigit hn
    · simp only [natDigitsAux, if_neg hn, List.mem_append, List.mem_singleton] at hc
      rcases hc with h | rfl
      · exact ih _ _ h
      · exact digitChar_isDigit (Nat.mod_lt _ (by norm_num))

theorem natDigitsAux_fuel : ∀ f₁ f₂ n, 0 < f₁ → 0 < f₂ → n < 10 ^ f₁ → n < 10 ^ f₂ →
    natDigitsAux f₁ n = natDigitsAux f₂ n := by
  intro f₁
  induction f₁ with
  | zero => intro f₂ n h; omega
  | succ f ih =>
    intro f₂ n _ h2 hb1 hb2
    cases f₂ with
    | zero => omega
    | succ g =>
      by_cases hn : n < 10
      · simp [natDigitsAux, hn]
      · have hf : 0 < f := by
          rcases Nat.eq_zero_or_pos f with rfl | h
          · norm_num at hb1; omega
          · exact h
        have hg : 0 < g := by
          rcases Nat.eq_zero_or_pos g with rfl | h
          · norm_num at hb2; omega
          · exact h
        have hb1' : n / 10 < 10 ^ f := by
          rw [Nat.div_lt_iff_lt_mul (by norm_num)]
          calc n < 10 ^ (f + 1) := hb1
            _ = 10 ^ f * 10 := pow_succ 10 f
        have hb2' : n / 10 < 10 ^ g := by
          rw [Nat.div_lt_iff_lt_mul (by norm_num)]
          calc n < 10 ^ (g + 1) := hb2
            _ = 10 ^ g * 10 := pow_succ 10 g
        simp only [natDigitsAux, if_neg hn]
        rw [ih g (n / 10) hf hg hb1' hb2']

theorem natDigitsAux_inj : ∀ f n₁ n₂, 0 < f → n₁ < 10 ^ f → n₂ < 10 ^ f →
    natDigitsAux f n₁ = natDigitsAux f n₂ → n₁ = n₂ := by
  intro f
  induction f with
  | zero => intro n₁ n₂ h; omega
  | succ f ih =>
    intro n₁ n₂ _ hb1 hb2 heq
    by_cases h1 : n₁ < 10 <;> by_cases h2 : n₂ < 10
    · simp only [natDigitsAux, if_pos h1, if_pos h2] at heq
      injection heq with hc
      exact digitChar_inj h1 h2 hc
    · exfalso
      simp only [natDigitsAux, if_pos h1, if_neg h2] at heq
      have hf : 0 < f := by
        rcases Nat.eq_zero_or_pos f with rfl | h
        · norm_num at hb2; omega
        · exact h
      have hlen := congrArg List.length heq
      simp only [List.length_singleton, List.length_append] at hlen
      have hnil : natDigitsAux f (n₂ / 10) = [] :=
        List.length_eq_zero.mp (by omega)
      exact natDigitsAux_ne_nil hf hnil
    · exfalso
      simp only [natDigitsAux, if_neg h1, if_pos h2] at heq
      have hf : 0 < f := by
        rcases Nat.eq_zero_or_pos f with rfl | h
        · norm_num at hb1; omega
        · exact h
      have hlen := congrArg List.length heq
      simp only [List.length_singleton, List.length_append] at hlen
      have hnil : natDigitsAux f (n₁ / 10) = [] :=
        List.length_eq_zero.mp (by omega)
      exact natDigitsAux_ne_nil hf hnil
    · simp only [natDigitsAux, if_neg h1, if_neg h2] at heq
      obtain ⟨heq1, heq2⟩ := List.append_inj' heq (by simp)
      injection heq2 with hc
      have hmod : n₁ % 10 = n₂ % 10 :=
        digitChar_inj (Nat.mod_lt _ (by norm_num)) (Nat.mod_lt _ (by norm_num)) hc
      have hf : 0 < f := by
        rcases Nat.eq_zero_or_pos f with rfl | h
        · norm_num at hb1; omega
        · exact h
      have hb1' : n₁ / 10 < 10 ^ f := by
        rw [Nat.div_lt_iff_lt_mul (by norm_num)]
        calc n₁ < 10 ^ (f + 1) := hb1
          _ = 10 ^ f * 10 := pow_succ 10 f
      have hb2' : n₂ / 10 < 10 ^ f := by
        rw [Nat.div_lt_iff_lt_mul (by norm_num)]
        calc n₂ < 10 ^ (f + 1) := hb2
          _ = 10 ^ f * 10 := pow_succ 10 f
      have hdiv := ih (n₁ / 10) (n₂ / 10) hf hb1' hb2' heq1
      omega

theorem lt_ten_pow : ∀ n : Nat, n < 10 ^ (n + 1) := by
  intro n
  induction n with
  | zero => norm_num
  | succ n ih =>
    have h2 : 10 ^ (n + 2) = 10 ^ (n + 1) * 10 := pow_succ 10 (n + 1)
    omega

theorem natDigits_digits {n : Nat} {c : Char} (h : c ∈ natDigits n) : c.isDigit = true :=
  natDigitsAux_digits _ _ _ h

theorem natDigits_inj {n₁ n₂ : Nat} (h : natDigits n₁ = natDigits n₂) : n₁ = n₂ := by
  have h1 := lt_ten_pow n₁
  have h2 := lt_ten_pow n₂
  have hm1 : n₁ < 10 ^ max (n₁ + 1) (n₂ + 1) :=
    lt_of_lt_of_le h1 (Nat.pow_le_pow_right (by norm_num) (le_max_left _ _))
  have hm2 : n₂ < 10 ^ max (n₁ + 1) (n₂ + 1) :=
    lt_of_lt_of_le h2 (Nat.pow_le_pow_right (by norm_num) (le_max_right _ _))
  have e1 : natDigits n₁ = natDigitsAux (max (n₁ + 1) (n₂ + 1)) n₁ :=
    natDigitsAux_fuel _ _ _ (by omega) (by omega) h1 hm1
  have e2 : natDigits n₂ = natDigitsAux (max (n₁ + 1) (n₂ + 1)) n₂ :=
    natDigitsAux_fuel _ _ _ (by omega) (by omega) h2 hm2
  exact natDigitsAux_inj _ _ _ (by omega) hm1 hm2 (by rw [← e1, ← e2]; exact h)

theorem append_split_digits : ∀ (a₁ a₂ b₁ b₂ : List Char),
    (∀ c ∈ a₁, c.isDigit = true) → (∀ c ∈ a₂, c.isDigit = true) →
    (∀ c, b₁.head? = some c → c.isDigit = false) →
    (∀ c, b₂.head? = some c → c.isDigit = false) →
    a₁ ++ b₁ = a₂ ++ b₂ → a₁ = a₂ ∧ b₁ = b₂ := by
  intro a₁
  induction a₁ with
  | nil =>
    intro a₂ b₁ b₂ _ ha₂ hb₁ _ h
    cases a₂ with
    | nil => exact ⟨rfl, h⟩
    | cons d ds =>
      exfalso
      rw [List.nil_append] at h
      have hd : b₁.head? = some d := by rw [h]; rfl
      have h1 := hb₁ d hd
      have h2 := ha₂ d (List.mem_cons_self d ds)
      simp_all
  | cons c cs ih =>
    intro a₂ b₁ b₂ ha₁ ha₂ hb₁ hb₂ h
    cases a₂ with
    | nil =>
      exfalso
      rw [List.nil_append] at h
      have hd : b₂.head? = some c := by rw [← h]; rfl
      have h1 := hb₂ c hd
      have h2 := ha₁ c (List.mem_cons_self c cs)
      simp_all
    | cons d ds =>
      simp only [List.cons_append] at h
      injection h with h1 h2
      subst h1
      obtain ⟨e1, e2⟩ := ih ds b₁ b₂ (fun x hx => ha₁ x (List.mem_cons_of_mem c hx))
        (fun x hx => ha₂ x (List.mem_cons_of_mem c hx)) hb₁ hb₂ h2
      exact ⟨by rw [e1], e2⟩

theorem extChars_head : ∀ cs e, extChars cs = some e → ∃ t, e = '.' :: t := by
  intro cs
  induction cs with
  | nil => intro e h; simp [extChars] at h
  | cons c cs ih =>
    intro e h
    simp only [extChars] at h
    cases hrec : extChars cs with
    | some e' =>
      rw [hrec] at h
      injection h with h'
      exact h' ▸ ih e' hrec
    | none =>
      rw [hrec] at h
      by_cases hc : c = '.'
      · rw [if_pos hc] at h
        injection h with h'
        exact ⟨cs, by rw [← h', hc]⟩
      · rw [if_neg hc] at h
        cases h

theorem extname_data_shape (s : String) :
    (extname s).data = [] ∨ ∃ t, (extname s).data = '.' :: t := by
  unfold extname
  cases hd : s.data with
  | nil => left; rfl
  | cons c cs =>
    dsimp only
    cases hx : extChars cs with
    | none => left; rfl
    | some e =>
      right
      obtain ⟨t, rfl⟩ := extChars_head cs e hx
      exact ⟨t, rfl⟩

theorem extname_head_not_digit (s : String) :
    ∀ c, (extname s).data.head? = some c → c.isDigit = false := by
  intro c hc
  rcases extname_data_shape s with h | ⟨t, h⟩
  · rw [h] at hc; cases hc
  · rw [h] at hc
    injection hc with h'
    rw [← h']
    decide

theorem genFilename_data (now rand : Nat) (f : String) :
    (genFilename now rand f).data =
      natDigits now ++ '-' :: (natDigits rand ++ (extname f).data) := by
  simp [genFilename, String.data_append, String.mk]

/-! ## C7 theorems. -/

/-- C7, counterexample: the generated stored filename is not guaranteed
unique — two distinct uploads that share the same `Date.now()` value
and the same random draw receive the identical stored name. -/
theorem c7_counterexample :
    genFilename 5 7 "a.png" = genFilename 5 7 "b.png" ∧
    ("a.png" : String) ≠ "b.png" ∧
    genFilename 5 7 "a.png" = "5-7.png" := by decide

/-- C7, amended: the stored filename is the decimal time prefix, a
dash, the decimal random suffix, and the original extension; two
uploads receive the same stored name exactly when their timestamp,
random draw, and original extension all coincide — so uniqueness holds
only across distinct (timestamp, random value) pairs, not absolutely. -/
theorem c7_amended_filename_collision_iff (n₁ r₁ : Nat) (f₁ : String)
    (n₂ r₂ : Nat) (f₂ : String) :
    genFilename n₁ r₁ f₁ = genFilename n₂ r₂ f₂ ↔
      n₁ = n₂ ∧ r₁ = r₂ ∧ extname f₁ = extname f₂ := by
  constructor
  · intro h
    have hdata := congrArg String.data h
    rw [genFilename_data, genFilename_data] at hdata
    obtain ⟨e1, e2⟩ := append_split_digits _ _ _ _
      (fun c hc => natDigits_digits hc) (fun c hc => natDigits_digits hc)
      (fun c hc => by injection hc with h'; rw [← h']; decide)
      (fun c hc => by injection hc with h'; rw [← h']; decide)
      hdata
    injection e2 with _ e2'
    obtain ⟨e3, e4⟩ := append_split_digits _ _ _ _
      (fun c hc => natDigits_digits hc) (fun c hc => natDigits_digits hc)
      (extname_head_not_digit f₁) (extname_head_not_digit f₂) e2'
    exact ⟨natDigits_inj e1, natDigits_inj e3, String.ext e4⟩
  · rintro ⟨rfl, rfl, hext⟩
    unfold genFilename
    rw [hext]

end BeautyGlow
